import Mathlib

/-!
Shallow embedding of `CSIKit/csitools.py` (CSIKit repository).

Conventions of the embedding:
* Python floats are modelled as real numbers (`ℝ`), complex CSI values as `ℂ`.
* The integer-valued hardware telemetry fields (`rssi_a`, `rssi_b`, `rssi_c`,
  `agc`, `noise`) are modelled as `ℤ`, as produced by the binary parsers.
* A numpy complex tensor of shape `[subcarriers, n_rx, n_tx]` is modelled as a
  nested list `List (List (List ℂ))`; this development models the 3-D case
  (the degenerate 1-D/2-D shapes of single-antenna hardware are outside it).
* Out-of-range indexing is modelled with `List.getD` defaults; the theorems
  about indexed cells carry the in-range hypotheses.
* `get_CSI` returns `Option`: `none` models the Python `return False` path,
  `some` models the normal `return (csi, no_frames, no_subcarriers)`.
* `get_snr` returns `Except String ℝ`: `Except.error msg` models
  `raise Exception(msg)`.
-/

namespace CSIKit

/-- Modelled from the spec: the Decibel Conversion Utility's `dbinv`
(in the `CSIKit/matlab` module, which is not part of the provided sources)
converts a decibel figure back to linear power, `dbinv x = 10 ^ (x / 10)`.
In particular `dbinv 0 = 1`, as the spec's data-model invariants note. -/
noncomputable def dbinv (x : ℝ) : ℝ := (10 : ℝ) ^ (x / 10)

/-- Modelled from the spec: the Decibel Conversion Utility's `db` in the
power convention (`db(X, "pow")` in the source), converting linear power to
decibels, `db_pow x = 10 * logb 10 x`.  For the degenerate input `0` the
utility yields a defined value rather than raising; in this model that
defined value is the real number `db_pow 0` (with `Real.logb 10 0 = 0`),
standing for the utility's zero-input sentinel. -/
noncomputable def db_pow (x : ℝ) : ℝ := 10 * Real.logb 10 x

/-- Modelled from the spec: the Decibel Conversion Utility's `db` in the
default magnitude convention (used by `get_CSI` on `abs` values): the
magnitude is squared before converting to decibels. -/
noncomputable def db_amp (x : ℝ) : ℝ := 10 * Real.logb 10 (x ^ 2)

/-- A numpy complex tensor of shape `[subcarriers, n_rx, n_tx]`. -/
abbrev CsiTensor := List (List (List ℂ))

/-- Elementwise application of `f` over a CSI tensor (numpy broadcasting of a
scalar unary operation). -/
def tensorMap (f : ℂ → ℂ) (t : CsiTensor) : CsiTensor :=
  t.map fun plane => plane.map fun row => row.map f

/-- `np.sum` over a complex tensor. -/
def tensorSum (t : CsiTensor) : ℂ :=
  (t.map fun plane => (plane.map fun row => row.sum).sum).sum

/-- Elementwise multiplication of a tensor by a real scalar, as in
`csi * np.sqrt(...)`. -/
noncomputable def tensorSmul (c : ℝ) (t : CsiTensor) : CsiTensor :=
  tensorMap (fun z => z * (c : ℂ)) t

/-- Elementwise magnitude of a complex tensor (`np.abs`). -/
noncomputable def tensorAbs (t : CsiTensor) : List (List (List ℝ)) :=
  t.map fun plane => plane.map fun row => row.map Complex.abs

/-- `t[y][r][c]` with out-of-range indices defaulting (numpy indexing is
always in range for well-formed shapes; theorems carry range hypotheses). -/
def get3 (t : CsiTensor) (y r c : ℕ) : ℂ :=
  ((t.getD y []).getD r []).getD c 0

/-- `t.shape[1]` of a (well-formed, rectangular) 3-D tensor: the length of
the first subcarrier's rx-antenna dimension. -/
def dim1 (t : CsiTensor) : ℕ := (t.getD 0 []).length

/-- The linear-power accumulation inside `get_total_rss`: starting from `0`,
each of the three RSSI readings is converted with `dbinv` and added if and
only if it is nonzero (`0` is the "antenna absent" sentinel). -/
noncomputable def rssi_mag (rssi_a rssi_b rssi_c : ℤ) : ℝ :=
  let m0 : ℝ := 0
  let m1 := if rssi_a ≠ 0 then m0 + dbinv (rssi_a : ℝ) else m0
  let m2 := if rssi_b ≠ 0 then m1 + dbinv (rssi_b : ℝ) else m1
  if rssi_c ≠ 0 then m2 + dbinv (rssi_c : ℝ) else m2

/-- `get_total_rss` from `csitools.py`: total RSS in dBm, interpreting the
accumulated RSSI magnitude as power and subtracting the fixed calibration
constant `44` and the AGC value. -/
noncomputable def get_total_rss (rssi_a rssi_b rssi_c agc : ℤ) : ℝ :=
  db_pow (rssi_mag rssi_a rssi_b rssi_c) - 44 - (agc : ℝ)

/-- The dict consumed by `get_snr`: each telemetry field is present
(`some`) or absent (`none`), modelling the Python `"key" in entry` tests. -/
structure SnrEntry where
  rssi_a : Option ℤ
  rssi_b : Option ℤ
  rssi_c : Option ℤ
  agc : Option ℤ
  noise : Option ℤ

/-- `get_snr` from `csitools.py`: first checks the presence of
`rssi_a`/`rssi_b`/`rssi_c`/`agc`, then of `noise`, raising (modelled as
`Except.error` with the source's message) before any computation; otherwise
returns `get_total_rss(...) - noise`. -/
noncomputable def get_snr (e : SnrEntry) : Except String ℝ :=
  if ¬(e.rssi_a.isSome ∧ e.rssi_b.isSome ∧ e.rssi_c.isSome ∧ e.agc.isSome) then
    Except.error "invalid entry rssi or agc is missing"
  else if ¬e.noise.isSome then
    Except.error "missing noise at entry"
  else
    Except.ok (get_total_rss (e.rssi_a.getD 0) (e.rssi_b.getD 0) (e.rssi_c.getD 0)
        (e.agc.getD 0) - ((e.noise.getD 0 : ℤ) : ℝ))

/-- A CSI frame as consumed by `scale_csi_entry`. -/
structure Frame where
  csi : CsiTensor
  n_rx : ℕ
  n_tx : ℕ
  rssi_a : ℤ
  rssi_b : ℤ
  rssi_c : ℤ
  agc : ℤ
  noise : ℤ

/-- `csi_pwr` in `scale_csi_entry`: the real part of
`np.sum(np.multiply(csi, np.conj(csi)))`. -/
def csi_pwr (t : CsiTensor) : ℝ :=
  (tensorSum (tensorMap (fun z => z * (starRingEnd ℂ) z) t)).re

/-- `scale` in `scale_csi_entry`: `rssi_pwr / (csi_pwr / 30)` with
`rssi_pwr = dbinv(get_total_rss(...))`. -/
noncomputable def scale_of (f : Frame) : ℝ :=
  dbinv (get_total_rss f.rssi_a f.rssi_b f.rssi_c f.agc) / (csi_pwr f.csi / 30)

/-- `noise_db` in `scale_csi_entry`: the noise floor with the `-127`
("undefined", monitor mode) sentinel remapped to `-92`. -/
def noise_db (f : Frame) : ℤ :=
  if f.noise = -127 then -92 else f.noise

/-- `thermal_noise_pwr` in `scale_csi_entry` (the `np.float` conversion of
the source is the `ℤ → ℝ` coercion here). -/
noncomputable def thermal_noise_pwr (f : Frame) : ℝ :=
  dbinv ((noise_db f : ℤ) : ℝ)

/-- `quant_error_pwr` in `scale_csi_entry`: `scale * (n_rx * n_tx)`. -/
noncomputable def quant_error_pwr (f : Frame) : ℝ :=
  scale_of f * ((f.n_rx * f.n_tx : ℕ) : ℝ)

/-- `total_noise_pwr` in `scale_csi_entry`. -/
noncomputable def total_noise_pwr (f : Frame) : ℝ :=
  thermal_noise_pwr f + quant_error_pwr f

/-- `scale_csi_entry` from `csitools.py`: the calibrated scaler.  `ret` is
`csi * np.sqrt(scale / total_noise_pwr)`, then the transmit-antenna
correction multiplies by `sqrt 2` for `n_tx = 2` and by `sqrt (dbinv 4.5)`
for `n_tx = 3`. -/
noncomputable def scale_csi_entry (f : Frame) : CsiTensor :=
  let ret := tensorSmul (Real.sqrt (scale_of f / total_noise_pwr f)) f.csi
  if f.n_tx = 2 then tensorSmul (Real.sqrt 2) ret
  else if f.n_tx = 3 then tensorSmul (Real.sqrt (dbinv 4.5)) ret
  else ret

/-- The transmit-antenna correction step of `scale_csi_entry` in isolation,
used to state the claims about the value "before transmit-antenna
correction". -/
noncomputable def txCorrected (n_tx : ℕ) (t : CsiTensor) : CsiTensor :=
  if n_tx = 2 then tensorSmul (Real.sqrt 2) t
  else if n_tx = 3 then tensorSmul (Real.sqrt (dbinv 4.5)) t
  else t

/-- One element of the trace consumed by `get_CSI`: a dict holding the raw
tensor under `"csi"` and the scaled tensor under `"scaled_csi"`. -/
structure TraceEntry where
  csi : CsiTensor
  scaled_csi : CsiTensor

instance : Inhabited TraceEntry := ⟨⟨[], []⟩⟩

/-- The value written into `csi[y][x]` by the loop body of `get_CSI` for a
frame whose tensor (under the selected key) is `t`.  For `"amplitude"` with
an antenna stream `s`, the source indexes the stream twice:
`db(abs(scaled_entry[y][antenna_stream][antenna_stream]))`.  The
`none` stream branch corresponds to the degenerate non-3-D Python path,
which is unreachable in this 3-D model (the stream is always defaulted).
For `"phasediff"` the cell is
`angle(scaled_entry[y][1][0]) - angle(scaled_entry[y][0][0])`.  Any other
metric leaves the cell's zero initialisation in place. -/
noncomputable def cellValue (t : CsiTensor) (metric : String) (astream : Option ℕ)
    (y : ℕ) : ℝ :=
  if metric = "amplitude" then
    match astream with
    | some s => db_amp (Complex.abs (get3 t y s s))
    | none => 0
  else if metric = "phasediff" then
    Complex.arg (get3 t y 1 0) - Complex.arg (get3 t y 0 0)
  else 0

/-- `get_CSI` from `csitools.py`.  The tensor is always read from the
`"scaled_csi"` key (`csi_key = "scaled_csi"` unconditionally; the `scaled`
parameter is accepted but never consulted).  `no_subcarriers` comes from
`trace[0]["csi"].shape[0]` (the raw `"csi"` key).  In this 3-D model
`len(csi_shape) == 3` always holds, so a missing `antenna_stream` is
defaulted to stream `0`.  The `"phasediff"` loop body returns `False`
(modelled `none`) as soon as it visits a cell of a frame whose scaled
tensor has fewer than 2 receive antennas, which happens exactly when some
frame's `shape[1] < 2`, at least one subcarrier exists and the metric is
`"phasediff"`; otherwise the filled `[no_subcarriers, no_frames]` matrix is
returned together with the two counts. -/
noncomputable def get_CSI (trace : List TraceEntry) (metric : String)
    (antenna_stream : Option ℕ) (scaled : Bool) :
    Option (List (List ℝ) × ℕ × ℕ) :=
  let no_frames := trace.length
  let no_subcarriers := (trace.getD 0 default).csi.length
  let astream := match antenna_stream with
    | none => some 0
    | some s => some s
  if metric = "phasediff" ∧ 0 < no_subcarriers ∧
      ∃ x ∈ List.range no_frames, dim1 (trace.getD x default).scaled_csi < 2 then
    none
  else
    some ((List.range no_subcarriers).map fun y =>
        (List.range no_frames).map fun x =>
          cellValue (trace.getD x default).scaled_csi metric astream y,
      no_frames, no_subcarriers)

/-! ### Concrete fixtures used by witnesses and counterexamples -/

/-- A single-subcarrier, single-antenna frame: `csi = [[[1]]]`, `n_rx = 1`,
`n_tx = 1`, all RSSI zero, `agc = -44` (so that the total RSS is the zero
sentinel value `0` of the modelled utility), `noise = 0`. -/
def frame1 : Frame := ⟨[[[1]]], 1, 1, 0, 0, 0, -44, 0⟩

/-- `frame1` with `n_tx = 2` and everything else unchanged. -/
def frame2 : Frame := ⟨[[[1]]], 1, 2, 0, 0, 0, -44, 0⟩

/-- A frame whose tensor power is exactly `30` (entries `5` and `2 + i`),
with `n_rx = 0` so that the quantization-error term vanishes and
`total_noise_pwr = dbinv 0 = 1`, and whose RSS linear power is
`dbinv 0 = 1 = csi_pwr / 30`. -/
def frame6 : Frame := ⟨[[[5, 2 + Complex.I]]], 0, 1, 0, 0, 0, -44, 0⟩

/-- An SNR entry whose `rssi_a` field is absent. -/
def entryMissA : SnrEntry := ⟨none, some 0, some 0, some 0, some 0⟩

/-- An SNR entry whose `noise` field is absent. -/
def entryMissN : SnrEntry := ⟨some 0, some 0, some 0, some 0, none⟩

/-- An SNR entry with all five fields present. -/
def entryFull : SnrEntry := ⟨some 0, some 0, some 0, some 0, some 0⟩

/-- A one-frame trace whose (raw and scaled) tensor is `[[[1]]]`: one
subcarrier, one receive antenna, one transmit antenna. -/
def trace1 : List TraceEntry := [⟨[[[1]]], [[[1]]]⟩]

/-! ### Helper lemmas -/

theorem re_sum_nonneg (l : List ℂ) (h : ∀ z ∈ l, 0 ≤ z.re) : 0 ≤ l.sum.re := by
  induction l with
  | nil => simp
  | cons a l ih =>
    simp only [List.sum_cons, Complex.add_re]
    have ha := h a (by simp)
    have hl := ih fun z hz => h z (by simp [hz])
    linarith

theorem csi_pwr_nonneg (t : CsiTensor) : 0 ≤ csi_pwr t := by
  unfold csi_pwr tensorSum
  refine re_sum_nonneg _ ?_
  intro w hw
  simp only [tensorMap, List.map_map, List.mem_map] at hw
  obtain ⟨plane, -, rfl⟩ := hw
  refine re_sum_nonneg _ ?_
  intro v hv
  simp only [Function.comp, List.map_map, List.mem_map] at hv
  obtain ⟨row, -, rfl⟩ := hv
  refine re_sum_nonneg _ ?_
  intro z hz
  simp only [Function.comp, List.mem_map] at hz
  obtain ⟨u, -, rfl⟩ := hz
  simp [Complex.mul_conj, Complex.normSq_nonneg]

theorem dbinv_pos (x : ℝ) : 0 < dbinv x :=
  Real.rpow_pos_of_pos (by norm_num) _

theorem scale_of_nonneg (f : Frame) : 0 ≤ scale_of f :=
  div_nonneg (dbinv_pos _).le (div_nonneg (csi_pwr_nonneg _) (by norm_num))

theorem total_noise_pwr_pos (f : Frame) : 0 < total_noise_pwr f :=
  add_pos_of_pos_of_nonneg (dbinv_pos _)
    (mul_nonneg (scale_of_nonneg f) (Nat.cast_nonneg _))

theorem tensorSmul_tensorSmul (a b : ℝ) (t : CsiTensor) :
    tensorSmul a (tensorSmul b t) = tensorSmul (b * a) t := by
  simp [tensorSmul, tensorMap, List.map_map, Function.comp, mul_assoc]

theorem tensorSmul_one (t : CsiTensor) : tensorSmul 1 t = t := by
  simp [tensorSmul, tensorMap]

/-- `scale_csi_entry` factored through `txCorrected`: the returned tensor is
the transmit-antenna correction applied to
`csi * sqrt(scale / total_noise_pwr)`. -/
theorem scale_csi_entry_eq (f : Frame) :
    scale_csi_entry f =
      txCorrected f.n_tx
        (tensorSmul (Real.sqrt (scale_of f / total_noise_pwr f)) f.csi) := rfl

theorem rssi_mag_zero : rssi_mag 0 0 0 = 0 := by
  simp [rssi_mag]

theorem db_pow_zero : db_pow 0 = 0 := by
  simp [db_pow, Real.logb, Real.log_zero]

theorem dbinv_zero : dbinv 0 = 1 := by
  simp [dbinv]

theorem get_total_rss_sentinel : get_total_rss 0 0 0 (-44) = 0 := by
  simp [get_total_rss, rssi_mag_zero, db_pow_zero]

theorem csi_pwr_single_one : csi_pwr [[[1]]] = 1 := by
  simp [csi_pwr, tensorMap, tensorSum]

theorem scale_of_frame1 : scale_of frame1 = 30 := by
  simp [scale_of, frame1, get_total_rss_sentinel, dbinv_zero, csi_pwr_single_one]

theorem scale_of_frame2 : scale_of frame2 = 30 := by
  simp [scale_of, frame2, get_total_rss_sentinel, dbinv_zero, csi_pwr_single_one]

theorem total_noise_pwr_frame1 : total_noise_pwr frame1 = 31 := by
  unfold total_noise_pwr thermal_noise_pwr quant_error_pwr
  rw [scale_of_frame1]
  norm_num [noise_db, frame1, dbinv_zero]

theorem total_noise_pwr_frame2 : total_noise_pwr frame2 = 61 := by
  unfold total_noise_pwr thermal_noise_pwr quant_error_pwr
  rw [scale_of_frame2]
  norm_num [noise_db, frame2, dbinv_zero]

/-! ### Claims -/

/-- Claim C10: for every trace, metric and antenna stream, `get_CSI` returns
the same result for `scaled = true` and `scaled = false`: the tensor is
always read from the `"scaled_csi"` key, so the `scaled` parameter has no
effect on the output. -/
theorem claim_C10 (trace : List TraceEntry) (metric : String)
    (antenna_stream : Option ℕ) :
    get_CSI trace metric antenna_stream true =
      get_CSI trace metric antenna_stream false := rfl

/-- Claim C9: for every entry containing all required fields, `get_snr`
returns `get_total_rss(rssi_a, rssi_b, rssi_c, agc)` minus the entry's
noise value taken directly — in particular no `-127 → -92` remap is
applied, so for `noise = -127` the raw `-127` is subtracted. -/
theorem claim_C9 (a b c g n : ℤ) :
    get_snr ⟨some a, some b, some c, some g, some n⟩ =
      Except.ok (get_total_rss a b c g - (n : ℝ)) := by
  simp [get_snr]

/-- Claim C5: for every `agc`, `get_total_rss 0 0 0 agc` is a defined value
(the function is total, it cannot raise) equal to the Decibel Conversion
Utility's defined value for a zero linear input, minus `44`, minus `agc`;
and the three zero RSSI inputs contribute nothing to the linear power
accumulation, which stays `0`. -/
theorem claim_C5 (agc : ℤ) :
    get_total_rss 0 0 0 agc = db_pow 0 - 44 - (agc : ℝ) ∧
      rssi_mag 0 0 0 = 0 :=
  ⟨by simp [get_total_rss, rssi_mag_zero], rssi_mag_zero⟩

/-- Claim C3: `get_snr` checks field presence before any computation.  If
any of `rssi_a`, `rssi_b`, `rssi_c`, `agc` is absent it fails with the
error naming the RSSI/AGC field class; if those four are present but
`noise` is absent it fails with the error naming `noise`; if all five are
present no such error is raised and a value is returned. -/
theorem claim_C3 (e : SnrEntry) :
    ((e.rssi_a = none ∨ e.rssi_b = none ∨ e.rssi_c = none ∨ e.agc = none) →
      get_snr e = Except.error "invalid entry rssi or agc is missing") ∧
    ((e.rssi_a ≠ none ∧ e.rssi_b ≠ none ∧ e.rssi_c ≠ none ∧ e.agc ≠ none ∧
        e.noise = none) →
      get_snr e = Except.error "missing noise at entry") ∧
    ((e.rssi_a ≠ none ∧ e.rssi_b ≠ none ∧ e.rssi_c ≠ none ∧ e.agc ≠ none ∧
        e.noise ≠ none) →
      ∃ v, get_snr e = Except.ok v) := by
  refine ⟨fun h => ?_, fun h => ?_, fun h => ?_⟩
  · have hc : ¬(e.rssi_a.isSome ∧ e.rssi_b.isSome ∧ e.rssi_c.isSome ∧
        e.agc.isSome) := by
      rcases h with h | h | h | h <;> simp [h]
    unfold get_snr
    rw [if_pos hc]
  · obtain ⟨h1, h2, h3, h4, h5⟩ := h
    unfold get_snr
    rw [if_neg (by simp [Option.isSome_iff_ne_none, h1, h2, h3, h4]),
      if_pos (by simp [h5])]
  · obtain ⟨h1, h2, h3, h4, h5⟩ := h
    refine ⟨get_total_rss (e.rssi_a.getD 0) (e.rssi_b.getD 0) (e.rssi_c.getD 0)
      (e.agc.getD 0) - ((e.noise.getD 0 : ℤ) : ℝ), ?_⟩
    unfold get_snr
    rw [if_neg (by simp [Option.isSome_iff_ne_none, h1, h2, h3, h4]),
      if_neg (by simp [Option.isSome_iff_ne_none, h5])]

/-- Witness for C3 at concrete entries: a missing `rssi_a` yields the
RSSI/AGC error, a missing `noise` yields the noise error, and a complete
entry yields a value. -/
theorem claim_C3_witness :
    get_snr entryMissA = Except.error "invalid entry rssi or agc is missing" ∧
    get_snr entryMissN = Except.error "missing noise at entry" ∧
    ∃ v, get_snr entryFull = Except.ok v :=
  ⟨(claim_C3 entryMissA).1 (Or.inl rfl),
   (claim_C3 entryMissN).2.1 (by refine ⟨?_, ?_, ?_, ?_, rfl⟩ <;> decide),
   (claim_C3 entryFull).2.2 (by refine ⟨?_, ?_, ?_, ?_, ?_⟩ <;> decide)⟩

/-- Claim C1: for every frame with `noise ≠ -127` the calibrated scaler
returns, up to the transmit-antenna correction step, the tensor
`csi * sqrt(scale_factor / total_noise_pwr)` where
`scale_factor = dbinv(get_total_rss(rssi_a, rssi_b, rssi_c, agc)) / (csi_pwr / 30)`
(with `csi_pwr = real(sum(csi * conj(csi)))` over the whole tensor and the
divisor `30` a fixed constant), and
`total_noise_pwr = dbinv(noise) + scale_factor * n_rx * n_tx`; when
`noise = -127` the value `-92` is substituted before the `dbinv`
conversion. -/
theorem claim_C1 (f : Frame) :
    (f.noise ≠ -127 →
      scale_csi_entry f =
        txCorrected f.n_tx
          (tensorSmul
            (Real.sqrt
              (dbinv (get_total_rss f.rssi_a f.rssi_b f.rssi_c f.agc) /
                  (csi_pwr f.csi / 30) /
                (dbinv (f.noise : ℝ) +
                  dbinv (get_total_rss f.rssi_a f.rssi_b f.rssi_c f.agc) /
                      (csi_pwr f.csi / 30) *
                    ((f.n_rx * f.n_tx : ℕ) : ℝ))))
            f.csi)) ∧
    (f.noise = -127 →
      scale_csi_entry f =
        txCorrected f.n_tx
          (tensorSmul
            (Real.sqrt
              (dbinv (get_total_rss f.rssi_a f.rssi_b f.rssi_c f.agc) /
                  (csi_pwr f.csi / 30) /
                (dbinv (-92 : ℝ) +
                  dbinv (get_total_rss f.rssi_a f.rssi_b f.rssi_c f.agc) /
                      (csi_pwr f.csi / 30) *
                    ((f.n_rx * f.n_tx : ℕ) : ℝ))))
            f.csi)) := by
  constructor <;> intro h
  · rw [scale_csi_entry_eq]
    unfold total_noise_pwr thermal_noise_pwr quant_error_pwr noise_db scale_of
    rw [if_neg h]
  · rw [scale_csi_entry_eq]
    unfold total_noise_pwr thermal_noise_pwr quant_error_pwr noise_db scale_of
    rw [if_pos h]
    norm_num

/-- Witness for C1 at `frame1` (whose noise floor `0` is not the sentinel). -/
theorem claim_C1_witness :
    frame1.noise ≠ -127 ∧
    scale_csi_entry frame1 =
      txCorrected frame1.n_tx
        (tensorSmul
          (Real.sqrt
            (dbinv (get_total_rss frame1.rssi_a frame1.rssi_b frame1.rssi_c
                  frame1.agc) /
                (csi_pwr frame1.csi / 30) /
              (dbinv (frame1.noise : ℝ) +
                dbinv (get_total_rss frame1.rssi_a frame1.rssi_b frame1.rssi_c
                      frame1.agc) /
                    (csi_pwr frame1.csi / 30) *
                  ((frame1.n_rx * frame1.n_tx : ℕ) : ℝ))))
          frame1.csi) :=
  ⟨by decide, (claim_C1 frame1).1 (by decide)⟩

/-- Claim C6: a frame with `n_tx = 1` whose RSS linear power exactly equals
`csi_pwr / 30` (so the scale factor is `1`) and whose total noise power is
`1` is scaled by exactly `1`: the elementwise magnitudes of the output
equal those of the input tensor.  (With the strictly positive thermal
noise term, `total_noise_pwr = 1` forces the quantization term to vanish,
which requires the degenerate `n_rx = 0`.) -/
theorem claim_C6 (f : Frame) (h1 : f.n_tx = 1)
    (h2 : dbinv (get_total_rss f.rssi_a f.rssi_b f.rssi_c f.agc) =
      csi_pwr f.csi / 30)
    (h3 : total_noise_pwr f = 1) :
    tensorAbs (scale_csi_entry f) = tensorAbs f.csi := by
  have hpos : 0 < csi_pwr f.csi / 30 := h2 ▸ dbinv_pos _
  have hscale : scale_of f = 1 := by
    unfold scale_of
    rw [h2]
    exact div_self (ne_of_gt hpos)
  have hid : scale_csi_entry f = f.csi := by
    rw [scale_csi_entry_eq, h1, hscale, h3]
    norm_num [txCorrected, tensorSmul_one]
  rw [hid]

/-- Witness for C6: `frame6` has tensor power `30` (entries `5` and
`2 + i`), RSS linear power `dbinv 0 = 1` and total noise power `1`. -/
theorem claim_C6_witness :
    frame6.n_tx = 1 ∧
    tensorAbs (scale_csi_entry frame6) = tensorAbs frame6.csi := by
  have h2 : dbinv (get_total_rss frame6.rssi_a frame6.rssi_b frame6.rssi_c
      frame6.agc) = csi_pwr frame6.csi / 30 := by
    have hrss : get_total_rss frame6.rssi_a frame6.rssi_b frame6.rssi_c
        frame6.agc = 0 := by
      simp only [frame6]
      exact get_total_rss_sentinel
    have hpwr : csi_pwr frame6.csi = 30 := by
      simp [frame6, csi_pwr, tensorMap, tensorSum, Complex.mul_conj,
        Complex.normSq_apply]
      norm_num
    rw [hrss, hpwr, dbinv_zero]
    norm_num
  have h3 : total_noise_pwr frame6 = 1 := by
    unfold total_noise_pwr thermal_noise_pwr quant_error_pwr
    norm_num [noise_db, frame6, dbinv_zero]
  exact ⟨rfl, claim_C6 frame6 rfl h2 h3⟩

/-- Counterexample to C4 as stated: at `frame1`/`frame2` (identical frames
except `n_tx`), the `n_tx = 2` result is `[[[sqrt(30/61) * sqrt 2]]]` while
`sqrt 2` times the `n_tx = 1` result is `[[[sqrt(30/31) * sqrt 2]]]`: the
quantization-error power `scale * n_rx * n_tx` changes with `n_tx`, so the
two results are not related by a plain `sqrt 2` factor. -/
theorem claim_C4_counterexample :
    scale_csi_entry frame2 ≠ tensorSmul (Real.sqrt 2) (scale_csi_entry frame1) := by
  have e1 : scale_csi_entry frame1 =
      tensorSmul (Real.sqrt (30 / 31)) [[[1]]] := by
    rw [scale_csi_entry_eq, scale_of_frame1, total_noise_pwr_frame1]
    norm_num [txCorrected, frame1]
  have e2 : scale_csi_entry frame2 =
      tensorSmul (Real.sqrt 2) (tensorSmul (Real.sqrt (30 / 61)) [[[1]]]) := by
    rw [scale_csi_entry_eq, scale_of_frame2, total_noise_pwr_frame2]
    norm_num [txCorrected, frame2]
  rw [e1, e2, tensorSmul_tensorSmul, tensorSmul_tensorSmul]
  intro hlist
  have hc : ((1 : ℂ) * ((Real.sqrt (30 / 61) * Real.sqrt 2 : ℝ) : ℂ)) =
      (1 : ℂ) * ((Real.sqrt (30 / 31) * Real.sqrt 2 : ℝ) : ℂ) := by
    simpa [tensorSmul, tensorMap] using hlist
  have hr : Real.sqrt (30 / 61) * Real.sqrt 2 =
      Real.sqrt (30 / 31) * Real.sqrt 2 := by
    have := hc
    rw [one_mul, one_mul] at this
    exact_mod_cast this
  have hs : Real.sqrt (30 / 61) = Real.sqrt (30 / 31) :=
    mul_right_cancel₀ (by positivity) hr
  have e61 : Real.sqrt (30 / 61) ^ 2 = (30 / 61 : ℝ) := Real.sq_sqrt (by norm_num)
  have e31 : Real.sqrt (30 / 31) ^ 2 = (30 / 31 : ℝ) := Real.sq_sqrt (by norm_num)
  rw [hs, e31] at e61
  norm_num at e61

/-- Claim C4, amended: the `n_tx = 2` result equals the `n_tx = 1` result
(all other fields held equal) multiplied elementwise not by `sqrt 2` alone
but by `sqrt 2 * sqrt (total_noise_pwr₁ / total_noise_pwr₂)`, where
`total_noise_pwr₁`/`total_noise_pwr₂` are the total noise powers computed
with `n_tx = 1` and `n_tx = 2` respectively (they differ because
`quant_error_pwr = scale * n_rx * n_tx` depends on `n_tx`). -/
theorem claim_C4_amended (f : Frame) (h : f.n_tx = 1) :
    scale_csi_entry { f with n_tx := 2 } =
      tensorSmul
        (Real.sqrt 2 *
          Real.sqrt (total_noise_pwr f / total_noise_pwr { f with n_tx := 2 }))
        (scale_csi_entry f) := by
  have hS : scale_of { f with n_tx := 2 } = scale_of f := rfl
  have hT1 : 0 < total_noise_pwr f := total_noise_pwr_pos f
  have hT2 : 0 < total_noise_pwr { f with n_tx := 2 } := total_noise_pwr_pos _
  have hSn : 0 ≤ scale_of f := scale_of_nonneg f
  have key : Real.sqrt (scale_of f / total_noise_pwr f) *
      Real.sqrt (total_noise_pwr f / total_noise_pwr { f with n_tx := 2 }) =
      Real.sqrt (scale_of f / total_noise_pwr { f with n_tx := 2 }) := by
    rw [← Real.sqrt_mul (div_nonneg hSn hT1.le)]
    congr 1
    rw [div_mul_div_comm, mul_comm (scale_of f) (total_noise_pwr f),
      mul_div_mul_left _ _ hT1.ne']
  rw [scale_csi_entry_eq, scale_csi_entry_eq, h, hS]
  show txCorrected 2 _ = _
  unfold txCorrected
  norm_num
  rw [tensorSmul_tensorSmul, tensorSmul_tensorSmul, ← key]
  ring_nf

/-- Witness for C4's amended claim at `frame1`. -/
theorem claim_C4_witness :
    frame1.n_tx = 1 ∧
    scale_csi_entry { frame1 with n_tx := 2 } =
      tensorSmul
        (Real.sqrt 2 *
          Real.sqrt (total_noise_pwr frame1 /
            total_noise_pwr { frame1 with n_tx := 2 }))
        (scale_csi_entry frame1) :=
  ⟨rfl, claim_C4_amended frame1 rfl⟩

/-- Counterexample to C2 as stated: on the single-receive-antenna trace
`trace1`, `get_CSI` with `metric = "phasediff"` returns the false-like
sentinel (`return False` in the source, modelled `none`) — no distinct
`UndefinedOperationError` is signalled anywhere in the code, contradicting
the claim that a checkable error, and not a false-like result, is
produced. -/
theorem claim_C2_counterexample :
    get_CSI trace1 "phasediff" none true = none := by
  simp only [get_CSI]
  split
  · rfl
  · next hcond =>
    exact absurd ⟨by trivial, by decide, 0, by decide, by decide⟩ hcond

/-- Claim C2, amended: for every nonempty trace with at least one
subcarrier all of whose frames have fewer than 2 receive antennas in the
scaled tensor, `get_CSI` with `metric = "phasediff"` returns the false-like
sentinel `False` (modelled `none`) — a distinguishable failure result
rather than a zero-filled matrix, but signalled by a falsy return value,
not by a distinct `UndefinedOperationError`. -/
theorem claim_C2_amended (trace : List TraceEntry) (astream : Option ℕ)
    (b : Bool) (hne : 0 < trace.length)
    (hsub : 0 < (trace.getD 0 default).csi.length)
    (hrx : ∀ e ∈ trace, dim1 e.scaled_csi < 2) :
    get_CSI trace "phasediff" astream b = none := by
  simp only [get_CSI]
  split
  · rfl
  · next hcond =>
    have hmem : trace.getD 0 default ∈ trace := by
      rcases trace with _ | ⟨e, tr⟩
      · simp at hne
      · simp
    exact absurd ⟨by trivial, hsub, 0, by simpa using hne, hrx _ hmem⟩ hcond

/-- Witness for C2's amended claim at the concrete trace `trace1`. -/
theorem claim_C2_witness :
    get_CSI trace1 "phasediff" (some 0) false = none :=
  claim_C2_amended trace1 (some 0) false (by decide) (by decide) (by decide)

/-- Claim C7: with `metric = "amplitude"` and a supplied antenna stream `s`
on a 3-D trace, every in-range output cell `[y][x]` is
`db(abs(scaled_entry[y][s][s]))` — the stream index is used for both the
rx and the tx dimension, exactly as the source writes it — and omitting
the stream behaves as stream `0`. -/
theorem claim_C7 (trace : List TraceEntry) (s : ℕ) (b : Bool) (y x : ℕ)
    (m : List (List ℝ)) (nf ns : ℕ)
    (h : get_CSI trace "amplitude" (some s) b = some (m, nf, ns))
    (hy : y < ns) (hx : x < nf) :
    (m.getD y []).getD x 0 =
      db_amp (Complex.abs (get3 (trace.getD x default).scaled_csi y s s)) ∧
    get_CSI trace "amplitude" none b = get_CSI trace "amplitude" (some 0) b := by
  refine ⟨?_, rfl⟩
  simp only [get_CSI] at h
  split at h
  · next hcond => simp at hcond
  · next hcond =>
    rw [Option.some.injEq, Prod.mk.injEq, Prod.mk.injEq] at h
    obtain ⟨hm, hnf, hns⟩ := h
    subst hm hnf hns
    have hy' : y < ((List.range ((trace.getD 0 default).csi.length)).map
        (fun yy => (List.range trace.length).map fun xx =>
          cellValue (trace.getD xx default).scaled_csi "amplitude" (some s) yy)).length := by
      simpa using hy
    rw [List.getD_eq_getElem _ _ hy']
    simp only [List.getElem_map, List.getElem_range]
    have hx' : x < ((List.range trace.length).map fun xx =>
        cellValue (trace.getD xx default).scaled_csi "amplitude" (some s)
          y).length := by
      simpa using hx
    rw [List.getD_eq_getElem _ _ hx']
    simp only [List.getElem_map, List.getElem_range]
    rfl

/-- Witness for C7 at `trace1` with stream `0`. -/
theorem claim_C7_witness :
    (([[db_amp (Complex.abs (get3 [[[(1 : ℂ)]]] 0 0 0))]] :
        List (List ℝ)).getD 0 []).getD 0 0 =
      db_amp (Complex.abs (get3 (trace1.getD 0 default).scaled_csi 0 0 0)) ∧
    get_CSI trace1 "amplitude" none true =
      get_CSI trace1 "amplitude" (some 0) true :=
  claim_C7 trace1 0 true 0 0
    [[db_amp (Complex.abs (get3 [[[(1 : ℂ)]]] 0 0 0))]] 1 1 rfl
    (by decide) (by decide)

/-- Claim C8: whenever `get_CSI` succeeds, the returned frame count is the
trace length, the returned subcarrier count is the first frame's tensor
length, and the matrix has exactly shape `[subcarriers, frames]`. -/
theorem claim_C8 (trace : List TraceEntry) (metric : String)
    (astream : Option ℕ) (b : Bool) (m : List (List ℝ)) (nf ns : ℕ)
    (h : get_CSI trace metric astream b = some (m, nf, ns)) :
    nf = trace.length ∧ ns = (trace.getD 0 default).csi.length ∧
    m.length = ns ∧ ∀ row ∈ m, row.length = nf := by
  simp only [get_CSI] at h
  split at h
  · exact absurd h (by simp)
  · rw [Option.some.injEq, Prod.mk.injEq, Prod.mk.injEq] at h
    obtain ⟨hm, hnf, hns⟩ := h
    subst hm hnf hns
    refine ⟨rfl, rfl, by simp, ?_⟩
    intro row hrow
    simp only [List.mem_map] at hrow
    obtain ⟨yy, -, rfl⟩ := hrow
    simp

/-- Witness for C8 on the concrete trace `trace1` with the amplitude
metric. -/
theorem claim_C8_witness :
    (1 : ℕ) = trace1.length ∧
    (1 : ℕ) = (trace1.getD 0 default).csi.length ∧
    ([[db_amp (Complex.abs (get3 [[[(1 : ℂ)]]] 0 0 0))]] :
        List (List ℝ)).length = 1 ∧
    ∀ row ∈ ([[db_amp (Complex.abs (get3 [[[(1 : ℂ)]]] 0 0 0))]] :
        List (List ℝ)), row.length = 1 :=
  claim_C8 trace1 "amplitude" none true
    [[db_amp (Complex.abs (get3 [[[(1 : ℂ)]]] 0 0 0))]] 1 1 rfl

end CSIKit
